import Mathlib

/-!
Verification development for the chess thought analyzer
(src/chess_thought_analyzer.py).

The chess rules engine (python-chess) and the UCI engine are external
collaborators of the analyzed program; following the specification they are
modelled as oracles.  A `Board` is a finite game tree: each node carries the
observations the analyzed code queries (side to move, check and checkmate
flags, the piece map, attacker and attack tables, king squares) and the list
of legal moves, each legal move paired with the resulting board.  All the
searches in the source are bounded (at most three ply), so a finite tree is
an exact model of the sequence of oracle answers the code consumes.

Every definition below is translated from the source; line numbers refer to
src/chess_thought_analyzer.py.  Definitions whose doc comment starts with
"Modelled from the spec" follow the specification text instead and are used
only to exhibit divergences between specification and code.
-/

namespace ProcessMate

/-- Piece type constants as in python-chess: PAWN=1 … KING=6. -/
def PAWN : Nat := 1
/-- Knight piece-type constant. -/
def KNIGHT : Nat := 2
/-- Bishop piece-type constant. -/
def BISHOP : Nat := 3
/-- Rook piece-type constant. -/
def ROOK : Nat := 4
/-- Queen piece-type constant. -/
def QUEEN : Nat := 5
/-- King piece-type constant. -/
def KING : Nat := 6

/-- A chess piece: type (1..6) and color (`true` = White, as in python-chess). -/
structure Piece where
  ptype : Nat
  color : Bool
deriving Repr, DecidableEq

/-- Observations of one position, i.e. the answers of the rules-engine oracle
on that position: side to move, check and checkmate predicates, piece map,
attacker table (`board.attackers(color, square)`), attack table
(`board.attacks(square)`), king squares, and the length of the move stack. -/
structure Obs where
  turn : Bool
  isCheck : Bool
  isCheckmate : Bool
  pieceMap : List (Nat × Piece)
  attackTbl : List ((Bool × Nat) × List Nat)
  attackSets : List (Nat × List Nat)
  kingW : Nat
  kingB : Nat
  moveStackLen : Nat
deriving Repr

/-- Data of one legal move: from/to squares, SAN rendering in the parent
position, and whether it is a capture there. -/
structure MoveInfo where
  fromSq : Nat
  toSq : Nat
  san : String
  isCapture : Bool
deriving Repr, DecidableEq

/-- A position together with the full (bounded) game tree below it: the legal
moves, each paired with the board obtained by pushing it. -/
inductive Board where
  | mk : Obs → List (MoveInfo × Board) → Board

/-- The observations at the root of a board tree. -/
def Board.obs : Board → Obs
  | .mk o _ => o

/-- The legal moves of a board, each paired with the board after pushing it. -/
def Board.legal : Board → List (MoveInfo × Board)
  | .mk _ ms => ms

/-- `board.piece_at(square)`. -/
def pieceAt (o : Obs) (sq : Nat) : Option Piece :=
  (o.pieceMap.find? (fun e => e.1 == sq)).map (·.2)

/-- `board.attackers(color, square)` (squares of `color` pieces attacking
`square`); missing table entries mean no attackers. -/
def attackersOf (o : Obs) (c : Bool) (sq : Nat) : List Nat :=
  ((o.attackTbl.find? (fun e => e.1 == (c, sq))).map (·.2)).getD []

/-- `board.is_attacked_by(color, square)`: some piece of `color` attacks
`square`; in python-chess this holds exactly when the attacker set is
nonempty. -/
def isAttackedBy (o : Obs) (c : Bool) (sq : Nat) : Bool :=
  !(attackersOf o c sq).isEmpty

/-- `board.attacks(square)`: squares attacked by the piece on `square`. -/
def attacksOf (o : Obs) (sq : Nat) : List Nat :=
  ((o.attackSets.find? (fun e => e.1 == sq)).map (·.2)).getD []

/-- `board.king(color)`. -/
def kingSq (o : Obs) (c : Bool) : Nat :=
  if c then o.kingW else o.kingB

/-- `_piece_value` (lines 2160-2174): Pawn 1, Knight 3, Bishop 3, Rook 5,
Queen 9, King 100; `None` and unknown types give 0. -/
def pieceValue : Option Piece → Nat
  | none => 0
  | some p =>
    if p.ptype == PAWN then 1
    else if p.ptype == KNIGHT then 3
    else if p.ptype == BISHOP then 3
    else if p.ptype == ROOK then 5
    else if p.ptype == QUEEN then 9
    else if p.ptype == KING then 100
    else 0

/-- `chess.piece_name(pt).capitalize()` for the six piece types; total model
returns "" on other inputs (coherent boards never use those). -/
def pieceName (pt : Nat) : String :=
  if pt == PAWN then "Pawn"
  else if pt == KNIGHT then "Knight"
  else if pt == BISHOP then "Bishop"
  else if pt == ROOK then "Rook"
  else if pt == QUEEN then "Queen"
  else if pt == KING then "King"
  else ""

/-- The type of the piece on a square, 0 when the square is empty. -/
def pieceTypeAt (o : Obs) (sq : Nat) : Nat :=
  match pieceAt o sq with
  | some p => p.ptype
  | none => 0

/-- File name letter of a file index 0..7. -/
def fileName (n : Nat) : String :=
  ["a", "b", "c", "d", "e", "f", "g", "h"].getD n "?"

/-- Rank name digit of a rank index 0..7. -/
def rankName (n : Nat) : String :=
  ["1", "2", "3", "4", "5", "6", "7", "8"].getD n "?"

/-- `chess.square_name(sq)`: square index 0..63 to algebraic name
(file = sq mod 8, rank = sq div 8, as in python-chess). -/
def squareName (sq : Nat) : String :=
  fileName (sq % 8) ++ rankName (sq / 8)

/-- Boolean list prefix test on characters (used to classify the threat
message strings produced by `find_threats`). -/
def charsStart : List Char → List Char → Bool
  | [], _ => true
  | _ :: _, [] => false
  | a :: as, b :: bs => a == b && charsStart as bs

/-- Boolean substring test on characters, modelling the Python
`"checkmate" in threat` test at line 1009. -/
def charsContain (needle : List Char) : List Char → Bool
  | [] => charsStart needle []
  | b :: bs => charsStart needle (b :: bs) || charsContain needle bs

/-- `"checkmate" in threat` (line 1009). -/
def containsCheckmate (s : String) : Bool :=
  charsContain "checkmate".toList s.toList

/-! ## ThreatDetector: `find_threats` (lines 841-1063) and helpers -/

/-- `can_lead_to_checkmate` (lines 758-793): 3-ply search over the checked
side's own response, the opponent's reply and the checked side's next move;
a response that is itself already a delivered checkmate is skipped by the
`continue` at line 771.  The two square arguments are unused by the source
logic and kept for signature fidelity. -/
def canLeadToCheckmate (b : Board) (_attackingSquare _kingSquare : Nat) : Bool :=
  b.legal.any fun rc =>
    if rc.2.obs.isCheckmate then false
    else rc.2.legal.any fun oc => oc.2.legal.any fun uc => uc.2.obs.isCheckmate

/-- `calculate_threat_line` (lines 795-839): explanation of how the piece on
`attackerSquare` could capture the piece on `targetSquare`, annotated with
check or won material when applicable. -/
def calculateThreatLine (b : Board) (targetSquare attackerSquare : Nat) :
    Option String :=
  match pieceAt b.obs targetSquare, pieceAt b.obs attackerSquare with
  | some tp, some ap =>
    let expl := "The " ++ pieceName ap.ptype ++ " on " ++ squareName attackerSquare ++
      " can capture the " ++ pieceName tp.ptype
    match b.legal.find? (fun mc =>
        mc.1.fromSq == attackerSquare && mc.1.toSq == targetSquare) with
    | none => some expl
    | some mc =>
      if mc.2.obs.isCheck then
        some (expl ++ " with check: " ++ mc.1.san ++ "+")
      else if pieceValue (some tp) > pieceValue (some ap) then
        some (expl ++ " winning " ++ toString (pieceValue (some tp)) ++
          " points of material with " ++ mc.1.san)
      else some expl
  | _, _ => none

/-- Part 1 of `find_threats` (lines 845-866): the check threat. -/
def checkThreats (b : Board) : List String :=
  if b.obs.isCheck then
    let kingSquare := kingSq b.obs b.obs.turn
    match attackersOf b.obs (!b.obs.turn) kingSquare with
    | [] => ["You are in check"]
    | cpSq :: _ =>
      let base := "You are in check by " ++ pieceName (pieceTypeAt b.obs cpSq) ++
        " from " ++ squareName cpSq
      if canLeadToCheckmate b cpSq kingSquare then
        [base ++ " (could lead to checkmate)"]
      else [base]
  else []

/-- Appends the computed threat line to a hanging-piece message when one was
produced (lines 884-888 / 891-895). -/
def withExpl (base : String) : Option String → String
  | some ex => base ++ " - " ++ ex
  | none => base

/-- Part 2 of `find_threats` at one square (lines 869-902): undefended,
underdefended and attacked-by-lower-value own pieces. -/
def hangAt (b : Board) (sq : Nat) : List String :=
  match pieceAt b.obs sq with
  | none => []
  | some p =>
    if p.color == b.obs.turn then
      if isAttackedBy b.obs (!b.obs.turn) sq then
        match attackersOf b.obs (!b.obs.turn) sq with
        | [] => []
        | a0 :: rest =>
          let atk := a0 :: rest
          let dfd := attackersOf b.obs b.obs.turn sq
          if dfd.length == 0 then
            [withExpl ("Undefended " ++ pieceName p.ptype ++ " on " ++ squareName sq ++
              " is under attack") (calculateThreatLine b sq a0)]
          else if atk.length > dfd.length then
            [withExpl ("Underdefended " ++ pieceName p.ptype ++ " on " ++ squareName sq ++
              " is under attack") (calculateThreatLine b sq a0)]
          else if atk.any (fun asq => pieceValue (pieceAt b.obs asq) < pieceValue (some p))
          then
            [pieceName p.ptype ++ " on " ++ squareName sq ++
              " attacked by lower value piece"]
          else []
      else []
    else []

/-- Part 2 of `find_threats` over all 64 squares. -/
def hangingThreats (b : Board) : List String :=
  (List.range 64).flatMap (hangAt b)

/-- Part 3 of `find_threats` (lines 906-923): knight forks by opposing
knights attacking two or more own pieces of type King/Queen/Rook/Bishop. -/
def knightForkThreats (b : Board) : List String :=
  (List.range 64).flatMap fun sq =>
    match pieceAt b.obs sq with
    | some p =>
      if p.color != b.obs.turn && p.ptype == KNIGHT then
        let valuableTargets := (attacksOf b.obs sq).filter fun asq =>
          match pieceAt b.obs asq with
          | some t => t.color == b.obs.turn &&
              [KING, QUEEN, ROOK, BISHOP].contains t.ptype
          | none => false
        if valuableTargets.length ≥ 2 then
          ["Knight fork threat from " ++ squareName sq]
        else []
      else []
    | none => []

/-- Movement directions scanned for a sliding piece (lines 932-937):
orthogonal for queen and rook, then diagonal for queen and bishop. -/
def directionsFor (pt : Nat) : List (Int × Int) :=
  (if pt == QUEEN || pt == ROOK then
    [((0 : Int), (1 : Int)), (1, 0), (0, -1), (-1, 0)]
  else []) ++
  (if pt == QUEEN || pt == BISHOP then
    [((1 : Int), (1 : Int)), (1, -1), (-1, 1), (-1, -1)]
  else [])

/-- Ray walk of lines 944-956: follow the direction collecting occupied
squares until leaving the board or having collected three pieces.  The fuel
bounds the walk at 8 steps, which never cuts it short on an 8x8 board. -/
def rayWalk (o : Obs) (x y dx dy : Int) (acc : List (Nat × Piece)) :
    Nat → List (Nat × Piece)
  | 0 => acc
  | fuel + 1 =>
    if 0 ≤ x && x < 8 && 0 ≤ y && y < 8 && acc.length < 3 then
      let sq := y.toNat * 8 + x.toNat
      let acc' := match pieceAt o sq with
        | some p => acc ++ [(sq, p)]
        | none => acc
      rayWalk o (x + dx) (y + dy) dx dy acc' fuel
    else acc

/-- Part 4a of `find_threats` (lines 925-966): skewers, i.e. rays of an own
sliding piece hitting exactly two pieces, both opponent-colored, with the
farther one more valuable than the nearer one. -/
def skewerThreats (b : Board) : List String :=
  (List.range 64).flatMap fun sq =>
    match pieceAt b.obs sq with
    | none => []
    | some p =>
      if p.color == b.obs.turn && [QUEEN, ROOK, BISHOP].contains p.ptype then
        (directionsFor p.ptype).flatMap fun d =>
          let fileIdx : Int := Int.ofNat (sq % 8)
          let rankIdx : Int := Int.ofNat (sq / 8)
          match rayWalk b.obs (fileIdx + d.1) (rankIdx + d.2) d.1 d.2 [] 8 with
          | [(_, p1), (sq2, p2)] =>
            if p1.color != b.obs.turn && p2.color != b.obs.turn &&
                pieceValue (some p2) > pieceValue (some p1) then
              ["Potential skewer from " ++ squareName sq ++ " to " ++ squareName sq2]
            else []
          | _ => []
      else []

/-- Part 4b of `find_threats` (lines 970-1003): forced checkmate within 3
ply.  The first legal move giving check such that every opponent reply
admits a mating answer is reported, and the loop breaks after the first
report, hence the `find?`. -/
def forcedMateScan (b : Board) : List String :=
  match b.legal.find? (fun mc =>
      mc.2.obs.isCheck &&
      mc.2.legal.all fun rc => rc.2.legal.any fun m2c => m2c.2.obs.isCheckmate) with
  | some mc => ["Potential checkmate in 3 starting with " ++ mc.1.san]
  | none => []

/-- Lines 1019-1029: after pushing the first move, scan all squares for a
piece of color `board_after_move1.turn` (note: the turn has already flipped
to the opponent of the mover) that is attacked more often than defended and
worth at least 3. -/
def hangingAfterMove (c : Board) : Bool :=
  (List.range 64).any fun sq =>
    match pieceAt c.obs sq with
    | some pc =>
      pc.color == c.obs.turn &&
      isAttackedBy c.obs (!c.obs.turn) sq &&
      decide ((attackersOf c.obs (!c.obs.turn) sq).length >
        (attackersOf c.obs c.obs.turn sq).length) &&
      decide (pieceValue (some pc) ≥ 3)
    | none => false

/-- Part 4c of `find_threats` (lines 1005-1061): forced material win.  The
scan is skipped entirely when any already-collected threat text contains
"checkmate" (lines 1008-1010); a first move is kept when it is a capture or
gives check (line 1013), does not trip `hangingAfterMove` (lines 1019-1032),
gives check (`forced_response`, lines 1035-1037) and every opponent reply
admits a follow-up capture of a piece worth at least 3 (lines 1040-1057).
No break follows a report, so several moves can be reported. -/
def materialWinScan (b : Board) (priorThreats : List String) : List String :=
  if priorThreats.any containsCheckmate then []
  else
    (b.legal.filter fun mc =>
      (mc.1.isCapture || mc.2.obs.isCheck) &&
      !hangingAfterMove mc.2 &&
      mc.2.obs.isCheck &&
      mc.2.legal.all fun rc => rc.2.legal.any fun m2c =>
        m2c.1.isCapture && decide (pieceValue (pieceAt rc.2.obs m2c.1.toSq) ≥ 3)
    ).map fun mc => "Potential winning tactic starting with " ++ mc.1.san

/-- `find_threats` (lines 841-1063): the four detection stages appended in
source order; the material-win scan sees the threats collected so far. -/
def findThreats (b : Board) : List String :=
  let t4 := checkThreats b ++ hangingThreats b ++ knightForkThreats b ++
    skewerThreats b
  let t5 := t4 ++ forcedMateScan b
  t5 ++ materialWinScan b t5

/-- Modelled from the spec: the forced-material-win scan as §4.1 step 6 and
claim C2 describe it, identical to `materialWinScan` except that the
first-move filter rejects moves that leave a piece of the MOVING side worth
at least 3 hanging; after the push the moving side is the one not on turn,
so the color test is the negation of the one in `hangingAfterMove`. -/
def specHangingOwnAfterMove (c : Board) : Bool :=
  (List.range 64).any fun sq =>
    match pieceAt c.obs sq with
    | some pc =>
      pc.color == !c.obs.turn &&
      isAttackedBy c.obs c.obs.turn sq &&
      decide ((attackersOf c.obs c.obs.turn sq).length >
        (attackersOf c.obs (!c.obs.turn) sq).length) &&
      decide (pieceValue (some pc) ≥ 3)
    | none => false

/-- Modelled from the spec: `materialWinScan` with the own-piece hanging
filter of the specification. -/
def specMaterialWinScan (b : Board) (priorThreats : List String) : List String :=
  if priorThreats.any containsCheckmate then []
  else
    (b.legal.filter fun mc =>
      (mc.1.isCapture || mc.2.obs.isCheck) &&
      !specHangingOwnAfterMove mc.2 &&
      mc.2.obs.isCheck &&
      mc.2.legal.all fun rc => rc.2.legal.any fun m2c =>
        m2c.1.isCapture && decide (pieceValue (pieceAt rc.2.obs m2c.1.toSq) ≥ 3)
    ).map fun mc => "Potential winning tactic starting with " ++ mc.1.san

/-! ## CCT sweep and strategic gate in `analyze_current_position` -/

/-- Lines 610-615: SAN of every legal move whose resulting position is
check. -/
def cctChecks (b : Board) : List String :=
  b.legal.filterMap fun mc => if mc.2.obs.isCheck then some mc.1.san else none

/-- Lines 626-629: SAN of every legal capture. -/
def cctCaptures (b : Board) : List String :=
  b.legal.filterMap fun mc => if mc.1.isCapture then some mc.1.san else none

/-- Lines 640-666: the "moves creating threats" list.  For each non-capture
legal move it pushes the move and then looks for a square holding a piece
whose color differs from `board_copy.turn` (the turn has already flipped),
attacked by `board_copy.turn`, with the destination square among the
attackers for `board_copy.turn`. -/
def cctThreatMoves (b : Board) : List String :=
  b.legal.filterMap fun mc =>
    if mc.1.isCapture then none
    else
      match pieceAt b.obs mc.1.fromSq with
      | none => none
      | some _ =>
        let c := mc.2
        if (List.range 64).any fun sq =>
            match pieceAt c.obs sq with
            | some target =>
              target.color != c.obs.turn &&
              isAttackedBy c.obs c.obs.turn sq &&
              (attackersOf c.obs c.obs.turn sq).contains mc.1.toSq
            | none => false
        then some mc.1.san
        else none

/-- Lines 696-715: the strategic-improvements bucket.  The gate at line 700
tests the variable `threats`, which at that point holds the CCT
threat-creating-move list assigned at line 640 (shadowing the
`find_threats` result of line 562); when that list is nonempty and simplify
mode is on, the advisor is not consulted and the bucket stays empty,
otherwise it receives the advisor moves. -/
def strategicBucket (b : Board) (simplify : Bool) (advisorMoves : List String) :
    List String :=
  if !(cctThreatMoves b).isEmpty && simplify then [] else advisorMoves

/-! ## Game phase (claims C6 context and C9) -/

/-- `len(self.board.piece_map())`. -/
def numPieces (b : Board) : Nat := b.obs.pieceMap.length

/-- `(len(list(self.board.move_stack)) + 1) // 2` (line 592). -/
def moveNumber (b : Board) : Nat := (b.obs.moveStackLen + 1) / 2

/-- Game phase of `analyze_strategic_position` (lines 1455-1462) as a
function of the piece count. -/
def advisorPhaseOf (numPcs : Nat) : String :=
  if numPcs > 28 then "Opening"
  else if numPcs < 12 then "Endgame"
  else "Middlegame"

/-- Game phase computed by `analyze_strategic_position` (lines 1455-1462). -/
def advisorPhase (b : Board) : String :=
  advisorPhaseOf (numPieces b)

/-- Header game phase of `analyze_current_position` (lines 591-599), shown
only when no threats were detected: Opening additionally requires the move
number to be below 10. -/
def headerPhase (b : Board) : String :=
  if numPieces b > 28 && moveNumber b < 10 then "Opening"
  else if numPieces b < 12 then "Endgame"
  else "Middlegame"

/-! ## EngineVerifier: `_run_engine_analysis` and `_update_analysis_output` -/

/-- A python-chess `PovScore`: a numeric score relative to the point of view
`pov` (`true` = White).  `analyse` returns the score relative to the side to
move of the analyzed board. -/
structure PovScore where
  pov : Bool
  value : Int
deriving Repr, DecidableEq

/-- `PovScore.white().score(mate_score=10000)`: the score from the point of
view of White. -/
def PovScore.white (s : PovScore) : Int :=
  if s.pov then s.value else -s.value

/-- The score from the point of view of color `c`. -/
def PovScore.toColor (s : PovScore) (c : Bool) : Int :=
  if s.pov == c then s.value else -s.value

/-- Lines 1761-1790: evaluate every candidate SAN.  Unparsable or illegal
SANs are skipped (lines 1765-1776); for a legal one the move is pushed on a
copy, the engine oracle scores the child position and the stored score is
the NEGATED White-point-of-view score (line 1789). -/
def evalCandidates (engine : Board → PovScore) (b : Board)
    (candidateMoves : List String) : List (String × Int) :=
  candidateMoves.filterMap fun moveSan =>
    match b.legal.find? (fun mc => mc.1.san == moveSan) with
    | none => none
    | some mc => some (moveSan, -(engine mc.2).white)

/-- Modelled from the spec: the score sign convention of §8, the child score
sign-flipped to the root mover's perspective, i.e.
score(child, rootTurn) = whiteScore(child) when the root side to move is
White and its negation when Black. -/
def specChildScore (rootTurn : Bool) (childScore : PovScore) : Int :=
  childScore.toColor rootTurn

/-- Line 2026 and line 1905: the reported root evaluation and the best-move
score are the White-point-of-view engine score of the root position,
independent of the side to move. -/
def rootReportedScore (s : PovScore) : Int := s.white

/-- Lines 1908: the evaluation gap between the engine best move and the
actually played move. -/
def evalDifference (bestScore actualScore : Int) : Int :=
  bestScore - (-actualScore)

/-- Lines 1910-1917: classification of the evaluation gap.  `blunder_level`
is assigned only inside `if eval_difference > 100:`, yet line 1917 reads it
unconditionally; for a gap of at most 100 the read raises
`UnboundLocalError`, modelled as the error case. -/
def classifyGap (gap : Int) : Except String String :=
  if gap > 100 then
    let lvl := "inaccuracy"
    let lvl := if gap > 200 then "mistake" else lvl
    let lvl := if gap > 300 then "blunder" else lvl
    Except.ok lvl
  else Except.error "UnboundLocalError: blunder_level"

/-- Capitalized blunder label as appended by line 1917. -/
def capitalizeWord (s : String) : String :=
  match s.toList with
  | [] => ""
  | c :: cs => String.mk (c.toUpper :: cs)

/-- Lines 1899-1927: the blunder-verdict step for the actually played move.
All of it sits in the `try` block started at line 1853; the
`UnboundLocalError` raised by `classifyGap` for gaps of at most 100 is
caught by the bare handler at lines 1926-1927, so `actual_move_analysis`
stays `None` and no verdict reaches the report. -/
def actualMoveVerdict (gap : Int) (bestMoveSan : String)
    (tacticsAgainst : List String) : Option (List String) :=
  match classifyGap gap with
  | Except.ok lvl =>
    some (tacticsAgainst ++
      [capitalizeWord lvl ++ ": " ++ bestMoveSan ++ " was better"])
  | Except.error _ => none

/-- Lines 1996-2020 show the blunder-check section exactly when
`actual_move_analysis` is not `None`. -/
def blunderSectionShown (verdict : Option (List String)) : Bool :=
  verdict.isSome

/-! ## Candidate partition (claim C5) -/

/-- Stable descending insertion into a list sorted by score, matching
Python `sorted(candidate_evaluations.items(), key=lambda x: x[1],
reverse=True)` at line 1953 (Python sort is stable). -/
def insertDesc (x : String × Int) : List (String × Int) → List (String × Int)
  | [] => [x]
  | y :: ys => if x.2 ≥ y.2 then x :: y :: ys else y :: insertDesc x ys

/-- Stable descending sort by score (line 1953). -/
def sortDesc : List (String × Int) → List (String × Int)
  | [] => []
  | x :: xs => insertDesc x (sortDesc xs)

/-- Lines 1956-1968: with `best_eval` the first sorted score and the
threshold 200 below it, each candidate goes to `eliminated_candidates` when
strictly below the threshold and to `promising_candidates` otherwise. -/
def partitionCandidates (evals : List (String × Int)) :
    List (String × Int) × List (String × Int) :=
  match sortDesc evals with
  | [] => ([], [])
  | bc :: rest =>
    let threshold := bc.2 - 200
    ((bc :: rest).filter fun p => !decide (p.2 < threshold),
     (bc :: rest).filter fun p => decide (p.2 < threshold))

/-- Lines 1978-1985: the detailed-calculation section prints a line only
for promising candidates that have one. -/
def detailedLinesShown (evals : List (String × Int))
    (candidateLines : List (String × List String)) :
    List (String × List String) :=
  (partitionCandidates evals).1.filterMap fun p =>
    ((candidateLines.find? (fun e => e.1 == p.1)).map (·.2)).map fun l => (p.1, l)

/-! ## Calculation lines (claim C7) -/

/-- An engine move, identified by origin and destination squares. -/
structure Move where
  fromSq : Nat
  toSq : Nat
deriving Repr, DecidableEq

/-- Pushing an engine move: follow the matching legal edge; an illegal move
leads to the stuck empty board (engine principal variations are legal, so
concrete runs never take the default). -/
def Board.push (b : Board) (m : Move) : Board :=
  match b.legal.find? (fun mc => mc.1.fromSq == m.fromSq && mc.1.toSq == m.toSq) with
  | some mc => mc.2
  | none => Board.mk ⟨true, false, false, [], [], [], 0, 0, 0⟩ []

/-- `line_board.san(response_move)` (line 1812), total model. -/
def Board.sanOf (b : Board) (m : Move) : String :=
  match b.legal.find? (fun mc => mc.1.fromSq == m.fromSq && mc.1.toSq == m.toSq) with
  | some mc => mc.1.san
  | none => ""

/-- `_has_immediate_threats` (lines 2123-2158): an own piece attacked by an
attacker of value at most its own, or attacked more often than defended; or
an opposing knight attacking two or more own King/Queen/Rook pieces. -/
def hasImmediateThreats (b : Board) : Bool :=
  ((List.range 64).any fun sq =>
    match pieceAt b.obs sq with
    | some p =>
      p.color == b.obs.turn &&
      isAttackedBy b.obs (!b.obs.turn) sq &&
      (let atk := attackersOf b.obs (!b.obs.turn) sq
       let dfd := attackersOf b.obs b.obs.turn sq
       atk.any (fun asq => pieceValue (pieceAt b.obs asq) ≤ pieceValue (some p)) ||
         decide (atk.length > dfd.length))
    | none => false) ||
  ((List.range 64).any fun sq =>
    match pieceAt b.obs sq with
    | some p =>
      p.color != b.obs.turn && p.ptype == KNIGHT &&
      decide (((attacksOf b.obs sq).filter fun asq =>
        match pieceAt b.obs asq with
        | some t => t.color == b.obs.turn && [KING, QUEEN, ROOK].contains t.ptype
        | none => false).length ≥ 2)
    | none => false)

/-- Lines 1807-1843: walk the principal variation from the position after
the candidate move, tagging each ply as check, capture, threat or quiet;
two consecutive quiet plies append the closing note and stop; at most
`max_depth = 5` plies are taken (the fuel argument). -/
def calcLoop (b : Board) : List Move → Nat → Nat → List String
  | [], _, _ => []
  | _ :: _, 0, _ => []
  | m :: rest, fuel + 1, quietCount =>
    let responseSan := b.sanOf m
    let lineBoard := b.push m
    let isChk := lineBoard.obs.isCheck
    let hasCaptures := lineBoard.legal.any fun mc => mc.1.isCapture
    let hasThreats := hasImmediateThreats lineBoard
    let quietPosition := !(isChk || hasCaptures || hasThreats)
    let quietCount' := if quietPosition then quietCount + 1 else 0
    let entry :=
      if isChk then responseSan ++ "+ (check)"
      else if hasCaptures then responseSan ++ " (capture)"
      else if hasThreats then responseSan ++ " (threat)"
      else responseSan ++ " (quiet)"
    if quietCount' ≥ 2 then [entry, "(Position is now quiet)"]
    else entry :: calcLoop lineBoard rest fuel quietCount'

/-- Lines 1793-1846: the calculation line of one candidate: the candidate
SAN itself first (line 1799), then the tagged principal variation from the
position after the candidate move. -/
def calcLine (moveSan : String) (afterCandidate : Board) (pv : List Move) :
    List String :=
  moveSan :: calcLoop afterCandidate pv 5 0

/-! ## Candidate aggregation (claim C1)

`analyze_current_position` collects candidate moves in a dict with six keys
created in a fixed order (lines 551-558); Python dicts iterate in insertion
order, so the concatenation at lines 717-720 visits the buckets in the
priority order ThreatResponse > Checks > Captures > Threats >
TacticalOpportunities > StrategicImprovements, and lines 722-728 drop
duplicates keeping the first occurrence. -/

/-- The six candidate buckets of `candidate_moves_collection`
(lines 551-558), in their creation order. -/
structure CandidateCollection where
  threatsResponse : List String
  checks : List String
  captures : List String
  threats : List String
  tacticalOpportunities : List String
  strategicImprovements : List String

/-- Lines 717-720: concatenation of the buckets in dict insertion order. -/
def allCandidates (c : CandidateCollection) : List String :=
  c.threatsResponse ++ c.checks ++ c.captures ++ c.threats ++
    c.tacticalOpportunities ++ c.strategicImprovements

/-- Lines 723-728: the loop keeping each move not yet in `seen`. -/
def dedupGo (seen : List String) : List String → List String
  | [] => []
  | m :: ms => if m ∈ seen then dedupGo seen ms else m :: dedupGo (m :: seen) ms

/-- Lines 722-728: remove duplicates while preserving order (`seen` starts
empty). -/
def uniqueCandidates (c : CandidateCollection) : List String :=
  dedupGo [] (allCandidates c)

/-- Modelled from the spec: "Scans in this order; first occurrence of a SAN
string wins; later duplicates dropped", phrased as a left fold that appends
a move only when it has not been kept already.  Used to compare the code
against the specification wording. -/
def specFirstOccurrenceScan (l : List String) : List String :=
  l.foldl (fun acc m => if m ∈ acc then acc else acc ++ [m]) []

theorem dedupGo_nodup (l : List String) :
    ∀ seen, (dedupGo seen l).Nodup ∧ ∀ x ∈ dedupGo seen l, x ∉ seen := by
  induction l with
  | nil => intro seen; simp [dedupGo]
  | cons m ms ih =>
    intro seen
    by_cases hm : m ∈ seen
    · simpa [dedupGo, hm] using ih seen
    · have h := ih (m :: seen)
      refine ⟨?_, ?_⟩
      · simp only [dedupGo, if_neg hm, List.nodup_cons]
        exact ⟨fun hx => (h.2 m hx) (by simp), h.1⟩
      · intro x hx
        simp only [dedupGo, if_neg hm, List.mem_cons] at hx
        rcases hx with rfl | hx
        · exact hm
        · intro hxs
          exact (h.2 x hx) (by simp [hxs])

theorem dedupGo_sublist (l : List String) :
    ∀ seen, (dedupGo seen l).Sublist l := by
  induction l with
  | nil => intro seen; simp [dedupGo]
  | cons m ms ih =>
    intro seen
    by_cases hm : m ∈ seen
    · simpa [dedupGo, hm] using (ih seen).cons m
    · simpa [dedupGo, hm] using (ih (m :: seen)).cons₂ m

theorem dedupGo_mem (l : List String) :
    ∀ seen x, x ∈ dedupGo seen l ↔ x ∈ l ∧ x ∉ seen := by
  induction l with
  | nil => intro seen x; simp [dedupGo]
  | cons m ms ih =>
    intro seen x
    by_cases hm : m ∈ seen
    · simp only [dedupGo, if_pos hm, ih, List.mem_cons]
      constructor
      · rintro ⟨hx, hxs⟩; exact ⟨Or.inr hx, hxs⟩
      · rintro ⟨hx | hx, hxs⟩
        · exact absurd hm (hx ▸ hxs)
        · exact ⟨hx, hxs⟩
    · simp only [dedupGo, if_neg hm, List.mem_cons, ih]
      by_cases hxm : x = m
      · subst hxm; tauto
      · tauto

theorem dedupGo_spec (l : List String) :
    ∀ (seen acc : List String), (∀ x, x ∈ seen ↔ x ∈ acc) →
      l.foldl (fun acc m => if m ∈ acc then acc else acc ++ [m]) acc =
        acc ++ dedupGo seen l := by
  induction l with
  | nil => intro seen acc _; simp [dedupGo]
  | cons m ms ih =>
    intro seen acc hiff
    by_cases hm : m ∈ seen
    · have hma : m ∈ acc := (hiff m).mp hm
      simp only [List.foldl_cons, if_pos hma, dedupGo, if_pos hm]
      exact ih seen acc hiff
    · have hma : m ∉ acc := fun h => hm ((hiff m).mpr h)
      simp only [List.foldl_cons, if_neg hma, dedupGo, if_neg hm]
      rw [ih (m :: seen) (acc ++ [m]) (by intro x; simp [hiff x, or_comm])]
      simp

/-- C1: for every position, the aggregated candidate list (lines 717-728)
contains no duplicate SAN strings; it equals the first-occurrence scan of
the bucket concatenation taken in the fixed priority order ThreatResponse >
Checks > Captures > Threats > TacticalOpportunities > StrategicImprovements,
so the occurrence kept is the first one in that order; being a sublist of
that concatenation, first-seen order inside each bucket is preserved, and no
move is lost or invented. -/
theorem candidate_aggregation_dedup (c : CandidateCollection) :
    (uniqueCandidates c).Nodup ∧
    uniqueCandidates c = specFirstOccurrenceScan (allCandidates c) ∧
    (uniqueCandidates c).Sublist (allCandidates c) ∧
    (∀ s, s ∈ uniqueCandidates c ↔ s ∈ allCandidates c) := by
  refine ⟨(dedupGo_nodup (allCandidates c) []).1, ?_, dedupGo_sublist _ [], ?_⟩
  · have h := dedupGo_spec (allCandidates c) [] [] (by simp)
    simpa [specFirstOccurrenceScan, uniqueCandidates] using h.symm
  · intro s
    simpa using dedupGo_mem (allCandidates c) [] s

/-! ## Claim C9: the two game-phase labels -/

/-- A board with 30 pieces after 20 half-moves (move number 10): the
advisor phase and the header phase disagree on it. -/
def c9Board : Board :=
  Board.mk
    { turn := true, isCheck := false, isCheckmate := false,
      pieceMap := (List.range 30).map (fun i => (i, ⟨PAWN, true⟩)),
      attackTbl := [], attackSets := [], kingW := 4, kingB := 60,
      moveStackLen := 20 } []

/-- C9: the advisor phase (lines 1455-1462) is a function of the piece
count alone with thresholds more than 28 / fewer than 12; the header phase
(lines 591-599) additionally requires move number below 10 for Opening; and
on a board with more than 28 pieces at move number at least 10 the header
says Middlegame while the advisor says Opening, as witnessed by a concrete
30-piece board after 20 half-moves. -/
theorem phase_labels_disagree :
    (∀ b : Board, advisorPhase b = advisorPhaseOf (numPieces b)) ∧
    (∀ n : Nat, 28 < n → advisorPhaseOf n = "Opening") ∧
    (∀ n : Nat, n ≤ 28 → n < 12 → advisorPhaseOf n = "Endgame") ∧
    (∀ n : Nat, n ≤ 28 → 12 ≤ n → advisorPhaseOf n = "Middlegame") ∧
    (∀ b : Board, 28 < numPieces b → 10 ≤ moveNumber b →
      headerPhase b = "Middlegame" ∧ advisorPhase b = "Opening") ∧
    (28 < numPieces c9Board ∧ 10 ≤ moveNumber c9Board ∧
      headerPhase c9Board = "Middlegame" ∧ advisorPhase c9Board = "Opening") := by
  have hnum : numPieces c9Board = 30 := rfl
  refine ⟨fun b => rfl, ?_, ?_, ?_, ?_, ?_⟩
  · intro n h; simp [advisorPhaseOf, h]
  · intro n h1 h2
    have ha : ¬ (28 < n) := by omega
    simp [advisorPhaseOf, ha, h2]
  · intro n h1 h2
    have ha : ¬ (28 < n) := by omega
    have hb : ¬ (n < 12) := by omega
    simp [advisorPhaseOf, ha, hb]
  · intro b h1 h2
    constructor
    · simp only [headerPhase]
      have : ¬ (moveNumber b < 10) := by omega
      simp [h1, this]; omega
    · simp [advisorPhase, advisorPhaseOf, h1]
  · have hmv : moveNumber c9Board = 10 := rfl
    refine ⟨by omega, by omega, ?_, ?_⟩
    · simp only [headerPhase, hnum, hmv]; norm_num
    · simp only [advisorPhase, advisorPhaseOf, hnum]; norm_num

/-- Witness for C9: the concrete divergent board, through the theorem. -/
theorem phase_labels_disagree_witness :
    headerPhase c9Board = "Middlegame" ∧ advisorPhase c9Board = "Opening" :=
  ⟨(phase_labels_disagree.2.2.2.2.2).2.2.1, (phase_labels_disagree.2.2.2.2.2).2.2.2⟩

/-! ## Claim C4: blunder classification and verdict attachment -/

/-- C4 (code bug): for an evaluation gap of at most 100 centipawns the
classification block reads the never-assigned local `blunder_level`
(line 1917), which raises `UnboundLocalError`; the exception is swallowed
by the handler at lines 1926-1927, so `actual_move_analysis` stays `None`
and the blunder section is not attached to the report, while for a gap
above 100 the verdict is attached as the claim describes. -/
theorem blunder_verdict_dropped_small_gap :
    evalDifference 50 (-50) = 0 ∧
    classifyGap 0 = Except.error "UnboundLocalError: blunder_level" ∧
    actualMoveVerdict 0 "Nf3" [] = none ∧
    blunderSectionShown (actualMoveVerdict 0 "Nf3" []) = false ∧
    actualMoveVerdict 150 "Nf3" [] = some ["Inaccuracy: Nf3 was better"] ∧
    actualMoveVerdict 250 "Nf3" [] = some ["Mistake: Nf3 was better"] ∧
    actualMoveVerdict 350 "Nf3" [] = some ["Blunder: Nf3 was better"] :=
  ⟨rfl, rfl, rfl, rfl, rfl, rfl, rfl⟩

/-! ## Claim C3: score sign convention -/

/-- A root position with White to move whose only candidate move "e4" leads
to a child position with Black to move. -/
def c3Board : Board :=
  Board.mk
    { turn := true, isCheck := false, isCheckmate := false, pieceMap := [],
      attackTbl := [], attackSets := [], kingW := 4, kingB := 60,
      moveStackLen := 2 }
    [(⟨12, 28, "e4", false⟩,
      Board.mk
        { turn := false, isCheck := false, isCheckmate := false, pieceMap := [],
          attackTbl := [], attackSets := [], kingW := 4, kingB := 60,
          moveStackLen := 3 } [])]

/-- C3 (code bug): line 1789 stores the negated White-point-of-view child
score for both root colors.  On a root with White to move (child side to
move Black) and an engine answer of -50 relative to Black — that is, +50
for White, the root mover — the code reports -50 while the claimed
convention (sign-flip to the root mover's perspective) gives +50; the root
evaluation (lines 1905 and 2026) is likewise reported from the White point
of view even when Black is to move, violating
score(P, Black) = -whiteScore(P). -/
theorem child_score_not_root_perspective :
    c3Board.obs.turn = true ∧
    (c3Board.legal.map (fun mc => mc.2.obs.turn)) = [false] ∧
    evalCandidates (fun _ => ⟨false, -50⟩) c3Board ["e4"] = [("e4", -50)] ∧
    specChildScore c3Board.obs.turn ⟨false, -50⟩ = 50 ∧
    (-50 : Int) ≠ 50 ∧
    rootReportedScore ⟨false, 30⟩ = -30 ∧
    PovScore.toColor ⟨false, 30⟩ false = 30 :=
  ⟨rfl, rfl, rfl, rfl, by decide, rfl, rfl⟩

/-! ## Claim C8: what-if simulations preserve the shared board -/

/-- `can_lead_to_checkmate` with the shared board threaded explicitly: the
source copies the board at line 761 and pushes only on copies (lines
766-767, 776-777, 781-782), so the shared board is returned unchanged. -/
def canLeadToCheckmateS (b : Board) (attackingSquare kingSquare : Nat) :
    Bool × Board :=
  let boardCopy := b
  (canLeadToCheckmate boardCopy attackingSquare kingSquare, b)

/-- `find_threats` with the shared board threaded explicitly: the 3-ply
checkmate look-ahead (lines 971-1003), the threat-line probe (lines
795-839) and the material-win search (lines 1005-1061) each copy before
every push, so the shared board is returned unchanged. -/
def findThreatsS (b : Board) : List String × Board :=
  (findThreats b, b)

/-- Candidate evaluation with the shared board threaded explicitly: line
1779 copies the board before the push at line 1780, so the shared board is
returned unchanged. -/
def evalCandidatesS (engine : Board → PovScore) (b : Board)
    (candidateMoves : List String) : List (String × Int) × Board :=
  (evalCandidates engine b candidateMoves, b)

/-- Continuation-line construction with the shared board threaded
explicitly: the candidate move is pushed on the copy made at line 1779 and
the principal variation on the further copy of line 1796, so the shared
board is returned unchanged. -/
def calcLineS (moveSan : String) (b : Board) (candidate : Move)
    (pv : List Move) : List String × Board :=
  let boardCopy := b.push candidate
  (calcLine moveSan boardCopy pv, b)

/-- C8: none of the what-if simulations mutates the shared analyzed board:
in the explicit state-passing model of the 3-ply checkmate look-ahead, the
full threat scan (which contains the threat-line probing and the forced
mate and material-win searches), the engine child-position evaluation and
the continuation-line walk, the shared board component after the call is
the board before the call. -/
theorem simulations_preserve_shared_board (b : Board)
    (attackingSquare kingSquare : Nat) (engine : Board → PovScore)
    (candidateMoves : List String) (moveSan : String) (candidate : Move)
    (pv : List Move) :
    (canLeadToCheckmateS b attackingSquare kingSquare).2 = b ∧
    (findThreatsS b).2 = b ∧
    (evalCandidatesS engine b candidateMoves).2 = b ∧
    (calcLineS moveSan b candidate pv).2 = b :=
  ⟨rfl, rfl, rfl, rfl⟩

/-! ## Claim C5: promising / eliminated partition -/

theorem insertDesc_perm (x : String × Int) (l : List (String × Int)) :
    (insertDesc x l).Perm (x :: l) := by
  induction l with
  | nil => simp [insertDesc]
  | cons y ys ih =>
    by_cases h : x.2 ≥ y.2
    · simp [insertDesc, h]
    · simp only [insertDesc, if_neg h]
      exact (ih.cons y).trans (List.Perm.swap x y ys)

theorem sortDesc_perm (l : List (String × Int)) : (sortDesc l).Perm l := by
  induction l with
  | nil => simp [sortDesc]
  | cons x xs ih => exact (insertDesc_perm x (sortDesc xs)).trans (ih.cons x)

theorem insertDesc_pairwise (x : String × Int) (l : List (String × Int))
    (h : l.Pairwise (fun a b => b.2 ≤ a.2)) :
    (insertDesc x l).Pairwise (fun a b => b.2 ≤ a.2) := by
  induction l with
  | nil => simp [insertDesc]
  | cons y ys ih =>
    rcases List.pairwise_cons.mp h with ⟨hy, hys⟩
    by_cases hxy : x.2 ≥ y.2
    · simp only [insertDesc, if_pos hxy]
      refine List.pairwise_cons.mpr ⟨?_, h⟩
      intro z hz
      rcases List.mem_cons.mp hz with rfl | hz
      · exact hxy
      · exact le_trans (hy z hz) hxy
    · simp only [insertDesc, if_neg hxy]
      refine List.pairwise_cons.mpr ⟨?_, ih hys⟩
      intro z hz
      have hz2 : z ∈ x :: ys := (insertDesc_perm x ys).mem_iff.mp hz
      rcases List.mem_cons.mp hz2 with rfl | hz2
      · exact le_of_not_ge hxy
      · exact hy z hz2

theorem sortDesc_pairwise (l : List (String × Int)) :
    (sortDesc l).Pairwise (fun a b => b.2 ≤ a.2) := by
  induction l with
  | nil => simp [sortDesc]
  | cons x xs ih => exact insertDesc_pairwise x (sortDesc xs) ih

/-- C5: the partition at lines 1952-1968 is exact: with `best` the top
sorted score, every candidate scoring at least `best - 200` is promising
and every candidate scoring below `best - 200` is eliminated, the two parts
use exactly those inequalities, together they are a permutation of all
evaluated candidates, and the detailed-calculation section (lines
1978-1985) prints continuation lines only for promising candidates. -/
theorem promising_eliminated_partition (evals : List (String × Int))
    (candidateLines : List (String × List String)) (hne : evals ≠ []) :
    ∃ bc rest, sortDesc evals = bc :: rest ∧
      (∀ p ∈ evals, p.2 ≤ bc.2) ∧
      (∀ p ∈ (partitionCandidates evals).1, bc.2 - 200 ≤ p.2) ∧
      (∀ p ∈ (partitionCandidates evals).2, p.2 < bc.2 - 200) ∧
      (∀ p ∈ evals, bc.2 - 200 ≤ p.2 → p ∈ (partitionCandidates evals).1) ∧
      (∀ p ∈ evals, p.2 < bc.2 - 200 → p ∈ (partitionCandidates evals).2) ∧
      ((partitionCandidates evals).1 ++ (partitionCandidates evals).2).Perm evals ∧
      (∀ e ∈ detailedLinesShown evals candidateLines,
        ∃ p ∈ (partitionCandidates evals).1, e.1 = p.1) := by
  obtain ⟨bc, rest, hsort⟩ : ∃ bc rest, sortDesc evals = bc :: rest := by
    cases hs : sortDesc evals with
    | nil =>
      have hp := sortDesc_perm evals
      rw [hs] at hp
      exact absurd hp.symm.eq_nil hne
    | cons a l => exact ⟨a, l, rfl⟩
  have hpart1 : (partitionCandidates evals).1 =
      (bc :: rest).filter fun p => !decide (p.2 < bc.2 - 200) := by
    simp [partitionCandidates, hsort]
  have hpart2 : (partitionCandidates evals).2 =
      (bc :: rest).filter fun p => decide (p.2 < bc.2 - 200) := by
    simp [partitionCandidates, hsort]
  have hmax : ∀ p ∈ evals, p.2 ≤ bc.2 := by
    intro p hp
    have hp' : p ∈ bc :: rest := by
      rw [← hsort]; exact (sortDesc_perm evals).symm.subset hp
    rcases List.mem_cons.mp hp' with rfl | hp'
    · exact le_refl _
    · have := sortDesc_pairwise evals
      rw [hsort] at this
      exact (List.pairwise_cons.mp this).1 p hp'
  refine ⟨bc, rest, hsort, hmax, ?_, ?_, ?_, ?_, ?_, ?_⟩
  · intro p hp
    rw [hpart1] at hp
    have := (List.mem_filter.mp hp).2
    simp at this
    omega
  · intro p hp
    rw [hpart2] at hp
    have := (List.mem_filter.mp hp).2
    simp at this
    omega
  · intro p hp hge
    rw [hpart1]
    refine List.mem_filter.mpr ⟨?_, by simp; omega⟩
    rw [← hsort]; exact (sortDesc_perm evals).symm.subset hp
  · intro p hp hlt
    rw [hpart2]
    refine List.mem_filter.mpr ⟨?_, by simp; omega⟩
    rw [← hsort]; exact (sortDesc_perm evals).symm.subset hp
  · rw [hpart1, hpart2]
    have hfl := List.filter_append_perm
      (fun q : String × Int => decide (q.2 < bc.2 - 200)) (bc :: rest)
    have hrest : (bc :: rest).Perm evals := hsort ▸ sortDesc_perm evals
    exact List.Perm.trans List.perm_append_comm (hfl.trans hrest)
  · intro e he
    simp only [detailedLinesShown, List.mem_filterMap] at he
    obtain ⟨p, hp, he⟩ := he
    rcases hmap : (candidateLines.find? (fun c => c.1 == p.1)).map (·.2) with
      _ | l
    · rw [hmap] at he; simp at he
    · rw [hmap] at he; simp at he
      exact ⟨p, hp, by rw [← he]⟩

/-- Witness for C5 at a concrete evaluation list. -/
theorem promising_eliminated_partition_witness :
    ∃ bc rest, sortDesc [("a", (100 : Int)), ("b", -150)] = bc :: rest ∧
      (∀ p ∈ [("a", (100 : Int)), ("b", -150)], p.2 ≤ bc.2) ∧
      (∀ p ∈ (partitionCandidates [("a", (100 : Int)), ("b", -150)]).1,
        bc.2 - 200 ≤ p.2) ∧
      (∀ p ∈ (partitionCandidates [("a", (100 : Int)), ("b", -150)]).2,
        p.2 < bc.2 - 200) ∧
      (∀ p ∈ [("a", (100 : Int)), ("b", -150)],
        bc.2 - 200 ≤ p.2 → p ∈ (partitionCandidates [("a", (100 : Int)), ("b", -150)]).1) ∧
      (∀ p ∈ [("a", (100 : Int)), ("b", -150)],
        p.2 < bc.2 - 200 → p ∈ (partitionCandidates [("a", (100 : Int)), ("b", -150)]).2) ∧
      ((partitionCandidates [("a", (100 : Int)), ("b", -150)]).1 ++
        (partitionCandidates [("a", (100 : Int)), ("b", -150)]).2).Perm
        [("a", (100 : Int)), ("b", -150)] ∧
      (∀ e ∈ detailedLinesShown [("a", (100 : Int)), ("b", -150)] [("a", ["a (quiet)"])],
        ∃ p ∈ (partitionCandidates [("a", (100 : Int)), ("b", -150)]).1, e.1 = p.1) :=
  promising_eliminated_partition [("a", 100), ("b", -150)] [("a", ["a (quiet)"])]
    (by simp)

/-! ## Claim C7: structure of calculation lines -/

/-- The four ply tags of a calculation line. -/
inductive Tag where
  | check
  | capture
  | threat
  | quiet
deriving DecidableEq, Repr

/-- The text appended to the SAN for each tag (lines 1832-1839). -/
def tagText : Tag → String
  | Tag.check => "+ (check)"
  | Tag.capture => " (capture)"
  | Tag.threat => " (threat)"
  | Tag.quiet => " (quiet)"

/-- One rendered ply: the SAN of the move followed by exactly one tag. -/
def renderPly (p : String × Tag) : String := p.1 ++ tagText p.2

theorem calcLoop_structure (pv : List Move) :
    ∀ (b : Board) (fuel quietCount : Nat),
      ∃ (plies : List (String × Tag)) (closed : Bool),
        calcLoop b pv fuel quietCount =
          plies.map renderPly ++
            (if closed then ["(Position is now quiet)"] else []) ∧
        plies.length ≤ fuel ∧
        (∀ l₁ p q l₂, plies = l₁ ++ p :: q :: l₂ →
          p.2 = Tag.quiet → q.2 = Tag.quiet → l₂ = []) ∧
        (1 ≤ quietCount → ∀ p l', plies = p :: l' → p.2 = Tag.quiet → l' = []) := by
  induction pv with
  | nil =>
    intro b fuel quietCount
    refine ⟨[], false, ?_, by simp, by simp, by simp⟩
    cases fuel <;> simp [calcLoop]
  | cons m rest ih =>
    intro b fuel quietCount
    cases fuel with
    | zero =>
      refine ⟨[], false, by simp [calcLoop], by simp, by simp, by simp⟩
    | succ f =>
      set lineBoard := b.push m with hlb
      set isChk := lineBoard.obs.isCheck with hic
      set hasCaptures := lineBoard.legal.any (fun mc => mc.1.isCapture) with hhc
      set hasThreats := hasImmediateThreats lineBoard with hht
      set quietPosition := !(isChk || hasCaptures || hasThreats) with hqp
      set quietCount' := (if quietPosition then quietCount + 1 else 0) with hqc
      set tg := (if isChk then Tag.check
        else if hasCaptures then Tag.capture
        else if hasThreats then Tag.threat
        else Tag.quiet) with htg
      have hentry :
          (if isChk then b.sanOf m ++ "+ (check)"
            else if hasCaptures then b.sanOf m ++ " (capture)"
            else if hasThreats then b.sanOf m ++ " (threat)"
            else b.sanOf m ++ " (quiet)") = renderPly (b.sanOf m, tg) := by
        by_cases h1 : isChk <;> by_cases h2 : hasCaptures <;>
          by_cases h3 : hasThreats <;>
          simp [htg, renderPly, tagText, h1, h2, h3]
      have hquiet_tag : quietPosition = true ↔ tg = Tag.quiet := by
        by_cases h1 : isChk <;> by_cases h2 : hasCaptures <;>
          by_cases h3 : hasThreats <;>
          simp [htg, hqp, h1, h2, h3]
      have hdef : calcLoop b (m :: rest) (f + 1) quietCount =
          (if quietCount' ≥ 2 then
            [renderPly (b.sanOf m, tg), "(Position is now quiet)"]
          else renderPly (b.sanOf m, tg) :: calcLoop lineBoard rest f quietCount') := by
        rw [← hentry]
        simp only [calcLoop, ← hlb, ← hic, ← hhc, ← hht, ← hqp, ← hqc]
      by_cases hstop : quietCount' ≥ 2
      · refine ⟨[(b.sanOf m, tg)], true, ?_, by simp, ?_, ?_⟩
        · rw [hdef, if_pos hstop]; simp
        · intro l₁ p q l₂ habs
          exact absurd (congrArg List.length habs) (by simp; omega)
        · intro _ p l' heq _
          cases heq; rfl
      · obtain ⟨plies', closed', heq', hlen', hcons', hqstart'⟩ :=
          ih lineBoard f quietCount'
        refine ⟨(b.sanOf m, tg) :: plies', closed', ?_, by simpa using hlen', ?_, ?_⟩
        · rw [hdef, if_neg hstop, heq']; simp
        · intro l₁ p q l₂ heq2 hp hq
          cases l₁ with
          | nil =>
            simp only [List.nil_append, List.cons.injEq] at heq2
            obtain ⟨rfl, hrest⟩ := heq2
            have hqp1 : quietPosition = true := hquiet_tag.mpr hp
            have hqc1 : 1 ≤ quietCount' := by
              rw [hqc, hqp1]; simp
            exact hqstart' hqc1 q l₂ hrest hq
          | cons a l₁' =>
            simp only [List.cons_append, List.cons.injEq] at heq2
            exact hcons' l₁' p q l₂ heq2.2 hp hq
        · intro hq1 p l' heq2 hp
          simp only [List.cons.injEq] at heq2
          obtain ⟨rfl, rfl⟩ := heq2
          have hqp1 : quietPosition = true := hquiet_tag.mpr hp
          exact absurd (by rw [hqc, hqp1]; simp; omega) hstop

/-- C7: every calculation line (lines 1793-1846) begins with its owning
candidate's own SAN; every subsequent element is a principal-variation ply
rendered with exactly one of the four tags check, capture, threat, quiet
(plus possibly the final quiet-position note); at most 5 engine plies are
taken (the per-candidate cap of line 1804); and two consecutive quiet plies
are always the last two plies, i.e. construction stops as soon as they
occur. -/
theorem calc_line_structure (moveSan : String) (afterCandidate : Board)
    (pv : List Move) :
    ∃ (plies : List (String × Tag)) (closed : Bool),
      calcLine moveSan afterCandidate pv =
        moveSan :: (plies.map renderPly ++
          (if closed then ["(Position is now quiet)"] else [])) ∧
      plies.length ≤ 5 ∧
      (∀ l₁ p q l₂, plies = l₁ ++ p :: q :: l₂ →
        p.2 = Tag.quiet → q.2 = Tag.quiet → l₂ = []) := by
  obtain ⟨plies, closed, h1, h2, h3, _⟩ :=
    calcLoop_structure pv afterCandidate 5 0
  exact ⟨plies, closed, by rw [calcLine, h1], h2, h3⟩

/-- A board with no pieces and no legal moves, used as a concrete input in
witnesses. -/
def emptyBoard : Board :=
  Board.mk
    { turn := true, isCheck := false, isCheckmate := false, pieceMap := [],
      attackTbl := [], attackSets := [], kingW := 4, kingB := 60,
      moveStackLen := 0 } []

/-- Witness for C7 at a concrete candidate and principal variation. -/
theorem calc_line_structure_witness :
    ∃ (plies : List (String × Tag)) (closed : Bool),
      calcLine "e4" emptyBoard [⟨12, 28⟩] =
        "e4" :: (plies.map renderPly ++
          (if closed then ["(Position is now quiet)"] else [])) ∧
      plies.length ≤ 5 ∧
      (∀ l₁ p q l₂, plies = l₁ ++ p :: q :: l₂ →
        p.2 = Tag.quiet → q.2 = Tag.quiet → l₂ = []) :=
  calc_line_structure "e4" emptyBoard [⟨12, 28⟩]

/-! ## Claim C10: the forced-mate scan -/

/-- A forced-mate threat record as appended at line 1002. -/
def isMateRecord (s : String) : Bool :=
  charsStart "Potential checkmate in 3".toList s.toList

/-- Rules-engine coherence used by C10, limited to one level of the tree: a
child position that is checkmate is in check and has no legal moves. -/
def OneLevelWF (b : Board) : Prop :=
  ∀ p ∈ b.legal, (p.2 : Board).obs.isCheckmate = true →
    (p.2 : Board).obs.isCheck = true ∧ (p.2 : Board).legal = []

theorem notMate_inCheck : isMateRecord "You are in check" = false := rfl

theorem notMate_checkBy (a b : String) :
    isMateRecord ("You are in check by " ++ a ++ " from " ++ b) = false := rfl

theorem notMate_checkByMate (a b : String) :
    isMateRecord (("You are in check by " ++ a ++ " from " ++ b) ++
      " (could lead to checkmate)") = false := rfl

theorem notMate_undef (a b : String) (e : Option String) :
    isMateRecord (withExpl ("Undefended " ++ a ++ " on " ++ b ++
      " is under attack") e) = false := by
  cases e <;> rfl

theorem notMate_underdef (a b : String) (e : Option String) :
    isMateRecord (withExpl ("Underdefended " ++ a ++ " on " ++ b ++
      " is under attack") e) = false := by
  cases e <;> rfl

theorem notMate_lowval (pt : Nat) (b : String) :
    isMateRecord (pieceName pt ++ " on " ++ b ++
      " attacked by lower value piece") = false := by
  unfold pieceName
  repeat' split
  all_goals rfl

theorem notMate_fork (a : String) :
    isMateRecord ("Knight fork threat from " ++ a) = false := rfl

theorem notMate_skewer (a b : String) :
    isMateRecord ("Potential skewer from " ++ a ++ " to " ++ b) = false := rfl

theorem notMate_material (a : String) :
    isMateRecord ("Potential winning tactic starting with " ++ a) = false := rfl

theorem isMate_record (a : String) :
    isMateRecord ("Potential checkmate in 3 starting with " ++ a) = true := rfl

theorem countP_flatMap_zero {α β : Type} (p : β → Bool) (f : α → List β)
    (l : List α) (h : ∀ x ∈ l, (f x).countP p = 0) :
    (l.flatMap f).countP p = 0 := by
  induction l with
  | nil => simp
  | cons a t ih =>
    rw [List.flatMap_cons, List.countP_append, h a (by simp), ih]
    intro x hx
    exact h x (by simp [hx])

theorem countP_checkThreats (b : Board) :
    (checkThreats b).countP isMateRecord = 0 := by
  unfold checkThreats
  repeat' (first | split | simp only [])
  all_goals
    simp [List.countP_cons, notMate_inCheck, notMate_checkBy, notMate_checkByMate]

theorem countP_hangAt (b : Board) (sq : Nat) :
    (hangAt b sq).countP isMateRecord = 0 := by
  unfold hangAt
  repeat' (first | split | simp only [])
  all_goals
    simp [List.countP_cons, notMate_undef, notMate_underdef, notMate_lowval]

theorem countP_hangingThreats (b : Board) :
    (hangingThreats b).countP isMateRecord = 0 :=
  countP_flatMap_zero _ _ _ (fun sq _ => countP_hangAt b sq)

theorem countP_knightFork (b : Board) :
    (knightForkThreats b).countP isMateRecord = 0 := by
  refine countP_flatMap_zero _ _ _ (fun sq _ => ?_)
  repeat' (first | split | simp only [])
  all_goals simp [List.countP_cons, notMate_fork]

theorem countP_skewer (b : Board) :
    (skewerThreats b).countP isMateRecord = 0 := by
  refine countP_flatMap_zero _ _ _ (fun sq _ => ?_)
  repeat' (first | split | simp only [])
  case h_1 => simp
  case isTrue =>
    refine countP_flatMap_zero _ _ _ (fun d _ => ?_)
    repeat' (first | split | simp only [])
    all_goals simp [List.countP_cons, notMate_skewer]
  case isFalse => simp

theorem countP_materialWin (b : Board) (prior : List String) :
    (materialWinScan b prior).countP isMateRecord = 0 := by
  unfold materialWinScan
  split
  · simp
  · rw [List.countP_map]
    exact List.countP_eq_zero.mpr (fun mc _ => by
      simp [Function.comp, notMate_material])

theorem countP_forcedMate_le (b : Board) :
    (forcedMateScan b).countP isMateRecord ≤ 1 := by
  unfold forcedMateScan
  split
  · simp [List.countP_cons, isMate_record]
  · simp

theorem countP_forcedMate_fires (b : Board) (hwf : OneLevelWF b)
    (hex : ∃ p ∈ b.legal, (p.2 : Board).obs.isCheckmate = true) :
    (forcedMateScan b).countP isMateRecord = 1 := by
  obtain ⟨p, hp, hcm⟩ := hex
  obtain ⟨hchk, hleg⟩ := hwf p hp hcm
  have hpred : (fun mc : MoveInfo × Board =>
      mc.2.obs.isCheck &&
      mc.2.legal.all fun rc => rc.2.legal.any fun m2c => m2c.2.obs.isCheckmate) p
      = true := by
    simp only [hchk, hleg, List.all_nil, Bool.and_true, Bool.true_and]
  have hsome : (b.legal.find? (fun mc =>
      mc.2.obs.isCheck &&
      mc.2.legal.all fun rc => rc.2.legal.any fun m2c =>
        m2c.2.obs.isCheckmate)).isSome := by
    rw [List.find?_isSome]
    exact ⟨p, hp, hpred⟩
  obtain ⟨mc, hmc⟩ := Option.isSome_iff_exists.mp hsome
  unfold forcedMateScan
  rw [hmc]
  simp [List.countP_cons, isMate_record]

/-- C10: over the whole `find_threats` output, at most one forced-mate
record ever appears (the scan at lines 971-1003 breaks after its first
report); and whenever some legal move delivers immediate checkmate — so
that, the mated opponent having no replies, the universal quantification
over replies is vacuously satisfied — the scan does fire and exactly one
"Potential checkmate in 3" record is reported.  The well-formedness
hypothesis states the rules-engine facts that a checkmate position is check
and has no legal moves. -/
theorem forced_mate_record_fires_and_unique :
    (∀ b : Board, (findThreats b).countP isMateRecord ≤ 1) ∧
    (∀ b : Board, OneLevelWF b →
      (∃ p ∈ b.legal, (p.2 : Board).obs.isCheckmate = true) →
      (findThreats b).countP isMateRecord = 1) := by
  have hbase : ∀ b : Board,
      (findThreats b).countP isMateRecord =
        (forcedMateScan b).countP isMateRecord := by
    intro b
    unfold findThreats
    simp only [List.countP_append, countP_checkThreats, countP_hangingThreats,
      countP_knightFork, countP_skewer, countP_materialWin]
    omega
  constructor
  · intro b
    rw [hbase]
    exact countP_forcedMate_le b
  · intro b hwf hex
    rw [hbase]
    exact countP_forcedMate_fires b hwf hex

/-- The mate-in-1 child position of the C10 witness board. -/
def b10Mated : Board :=
  Board.mk
    { turn := false, isCheck := true, isCheckmate := true, pieceMap := [],
      attackTbl := [], attackSets := [], kingW := 7, kingB := 63,
      moveStackLen := 1 } []

/-- A board whose single legal move delivers immediate checkmate. -/
def b10 : Board :=
  Board.mk
    { turn := true, isCheck := false, isCheckmate := false, pieceMap := [],
      attackTbl := [], attackSets := [], kingW := 7, kingB := 63,
      moveStackLen := 0 }
    [(⟨3, 59, "Qd8#", false⟩, b10Mated)]

/-- Witness for C10: the mate-in-1 board satisfies the hypotheses and the
scan reports exactly one forced-mate record on it. -/
theorem forced_mate_record_fires_and_unique_witness :
    OneLevelWF b10 ∧ (∃ p ∈ b10.legal, (p.2 : Board).obs.isCheckmate = true) ∧
      (findThreats b10).countP isMateRecord = 1 := by
  have hwf : OneLevelWF b10 := by
    intro p hp _
    have : p = (⟨3, 59, "Qd8#", false⟩, b10Mated) := by
      simpa [b10, Board.legal] using hp
    subst this
    exact ⟨rfl, rfl⟩
  have hex : ∃ p ∈ b10.legal, (p.2 : Board).obs.isCheckmate = true :=
    ⟨(⟨3, 59, "Qd8#", false⟩, b10Mated), by simp [b10, Board.legal], rfl⟩
  exact ⟨hwf, hex, forced_mate_record_fires_and_unique.2 b10 hwf hex⟩

/-! ## Claim C2: the forced-material-win first-move filter

Concrete position: White Qd1 (square 3) and Kh1 (7); Black Kh8 (63),
Nb8 (57) and pawn g7 (54); White to move
(FEN 1n5k/6p1/8/8/8/8/8/3Q3K w - - 0 1).  The move Qd8+ checks along the
eighth rank, leaves no White piece attacked, attacks the undefended knight
b8, and the only reply Kh7 allows Qxb8 winning a knight (worth 3). -/

/-- Position after Qd8+ Kh7 Qxb8 (leaf; the scans never look deeper). -/
def c2Leaf : Board :=
  Board.mk
    { turn := false, isCheck := false, isCheckmate := false,
      pieceMap := [(59, ⟨QUEEN, true⟩), (7, ⟨KING, true⟩), (54, ⟨PAWN, false⟩),
        (55, ⟨KING, false⟩)],
      attackTbl := [], attackSets := [], kingW := 7, kingB := 55,
      moveStackLen := 3 } []

/-- Position after Qd8+ Kh7: White to move, Qxb8 available. -/
def c2AfterKh7 : Board :=
  Board.mk
    { turn := true, isCheck := false, isCheckmate := false,
      pieceMap := [(59, ⟨QUEEN, true⟩), (7, ⟨KING, true⟩), (54, ⟨PAWN, false⟩),
        (57, ⟨KNIGHT, false⟩), (55, ⟨KING, false⟩)],
      attackTbl := [((true, 57), [59]), ((true, 63), [59])],
      attackSets := [], kingW := 7, kingB := 55, moveStackLen := 2 }
    [(⟨59, 57, "Qxb8", true⟩, c2Leaf)]

/-- Position after Qd8+: Black in check, knight b8 and king h8 attacked by
the queen, no White piece attacked, only reply Kh7. -/
def c2AfterQd8 : Board :=
  Board.mk
    { turn := false, isCheck := true, isCheckmate := false,
      pieceMap := [(59, ⟨QUEEN, true⟩), (7, ⟨KING, true⟩), (54, ⟨PAWN, false⟩),
        (57, ⟨KNIGHT, false⟩), (63, ⟨KING, false⟩)],
      attackTbl := [((true, 57), [59]), ((true, 63), [59])],
      attackSets := [], kingW := 7, kingB := 63, moveStackLen := 1 }
    [(⟨63, 55, "Kh7", false⟩, c2AfterKh7)]

/-- The root position of the C2 scenario, White to move. -/
def c2Board : Board :=
  Board.mk
    { turn := true, isCheck := false, isCheckmate := false,
      pieceMap := [(3, ⟨QUEEN, true⟩), (7, ⟨KING, true⟩), (54, ⟨PAWN, false⟩),
        (57, ⟨KNIGHT, false⟩), (63, ⟨KING, false⟩)],
      attackTbl := [],
      attackSets := [(57, [40, 42, 51])], kingW := 7, kingB := 63,
      moveStackLen := 0 }
    [(⟨3, 59, "Qd8+", false⟩, c2AfterQd8)]

/-- C2 (code bug): lines 1019-1029 test pieces of color
`board_after_move1.turn`, which after the push is the OPPONENT of the
mover, against the comment "Skip if we're leaving our own pieces hanging"
and the claimed filter on the moving side.  On the concrete position the
first move Qd8+ hangs no White piece and wins a knight against every reply,
so the claimed scan reports it, but the code sees the attacked black knight
(and the checked black king) as "hanging", skips the move, and
`find_threats` reports nothing at all. -/
theorem material_win_scan_checks_wrong_side :
    hangingAfterMove c2AfterQd8 = true ∧
    specHangingOwnAfterMove c2AfterQd8 = false ∧
    materialWinScan c2Board [] = [] ∧
    specMaterialWinScan c2Board [] =
      ["Potential winning tactic starting with Qd8+"] ∧
    findThreats c2Board = [] :=
  ⟨rfl, rfl, rfl, rfl, rfl⟩

/-! ## Claim C6: the gate on the strategic bucket

Concrete scenario: the side to move is in check (so `find_threats` reports
threats), there is one quiet legal move, and the CCT threat-creating-move
list is empty; with simplify mode on, the claim says the strategic bucket
must stay empty, but the gate at line 700 reads the shadowed `threats`
variable holding the CCT list, so the advisor is consulted and the bucket
is populated. -/

/-- Position after the king steps aside in the C6 scenario (leaf). -/
def c6Child : Board :=
  Board.mk
    { turn := false, isCheck := false, isCheckmate := false,
      pieceMap := [(3, ⟨KING, true⟩), (60, ⟨QUEEN, false⟩)],
      attackTbl := [((false, 3), [60])], attackSets := [], kingW := 3,
      kingB := 60, moveStackLen := 2 } []

/-- The C6 root: White king e1 in check by the black queen e8; one legal
move Kd1; no capture, no check, no threat-creating move. -/
def c6Board : Board :=
  Board.mk
    { turn := true, isCheck := true, isCheckmate := false,
      pieceMap := [(4, ⟨KING, true⟩), (60, ⟨QUEEN, false⟩)],
      attackTbl := [((false, 4), [60])], attackSets := [], kingW := 4,
      kingB := 60, moveStackLen := 1 }
    [(⟨4, 3, "Kd1", false⟩, c6Child)]

/-- C6 (code bug): line 640 reuses the name `threats` for the CCT
threat-creating-move list, shadowing the `find_threats` result of line 562,
and line 700 gates the strategic analysis on that shadowed variable.  On
the concrete board the threat detector does report threats and simplify
mode is on, yet the strategic bucket is populated with the advisor moves,
contradicting the claim that it stays empty; the detector threat list and
the gate list are two different values. -/
theorem strategic_gate_tests_shadowed_threats :
    findThreats c6Board =
      ["You are in check by Queen from e8",
       "Undefended King on e1 is under attack - The Queen on e8 can capture the King"] ∧
    cctThreatMoves c6Board = [] ∧
    strategicBucket c6Board true ["a3"] = ["a3"] :=
  ⟨rfl, rfl, rfl⟩

end ProcessMate
